import Mathlib

/-!
Verification of the molecule image fetcher / animation creator script
(`pubchem.py`), a Streamlit page gluing together an HTTP client, an image
library, a video encoder and a fuzzy-string matcher.

The script is embedded shallowly:

* `fetch_pubchem_image` — the PubChem lookup.  The network is modelled as a
  function from URL to response; the embedding also returns the list of HTTP
  requests issued so that "no network call" is expressible.
* `create_video_and_gif` — the frame-sequence assembler.  The directory
  listing is a list of file names; the video and GIF outputs are records of
  path, encoded frame list and frame rate; the embedding also returns the
  list of output files written.  `sorted()` of Python is modelled by a
  stable insertion sort `pySorted` over the code-point lexicographic string
  order `strLe`, which is Python string comparison.
* `get_best_match` — the FAQ chatbot.  The fuzzy library call
  `process.extractOne` is modelled abstractly: it takes the scorer as a
  parameter and returns the first key attaining the maximal score, as the
  rapidfuzz library does.  Scores are rationals in the range 0 to 100.
* the `Create Video & GIF` button handler, whose call target
  `save_uploaded_files` is not bound anywhere in the script.
-/

/-! ## Python string order: code-point lexicographic comparison -/

/-- Python string `<=` on the underlying character lists: code-point
lexicographic order. -/
def lexLe : List Char → List Char → Bool
  | [], _ => true
  | _ :: _, [] => false
  | a :: as, b :: bs => if a < b then true else if b < a then false else lexLe as bs

/-- Python string `<=`: code-point lexicographic order on the characters. -/
def strLe (a b : String) : Bool := lexLe a.data b.data

/-- Insert a string into a sorted list, keeping earlier-inserted equals in
place: the insertion step of a stable sort. -/
def insertStr (x : String) : List String → List String
  | [] => [x]
  | y :: ys => if strLe x y then x :: y :: ys else y :: insertStr x ys

/-- Python `sorted()` on a list of strings: the stable sort of the list
under `strLe`.  Modelled as insertion sort, which is stable and produces
the sorted permutation, exactly as `sorted()` does. -/
def pySorted : List String → List String
  | [] => []
  | x :: xs => insertStr x (pySorted xs)

/-! ## Lookup service: `fetch_pubchem_image` (lines 33-47) -/

/-- An HTTP response: status code and payload bytes. -/
structure HttpResponse where
  status_code : Nat
  content : List Nat

/-- Outcome of `fetch_pubchem_image`: the `None` returns of the script are
split by which message was shown (`st.warning` on empty input, `st.error`
on a failed lookup); a 200 response yields the decoded image bytes. -/
inductive FetchResult where
  | emptyInput
  | notFound
  | image (bytes : List Nat)
  deriving DecidableEq

/-- The request URL built by the script (line 39). -/
def image_url (molecule_name : String) (structure_code : String) : String :=
  "https://pubchem.ncbi.nlm.nih.gov/rest/pug/compound/name/" ++ molecule_name ++
    "/PNG?record_type=" ++ structure_code

/-- `fetch_pubchem_image(molecule_name, structure_type)` (lines 33-47).
`net` models `requests.get`.  The second component is the list of HTTP
requests issued during the call. -/
def fetch_pubchem_image (molecule_name : String) (structure_type : String)
    (net : String → HttpResponse) : FetchResult × List String :=
  if molecule_name = "" then (FetchResult.emptyInput, [])
  else
    let structure_code := if structure_type = "2D Structure" then "2d" else "3d"
    let url := image_url molecule_name structure_code
    let response := net url
    if response.status_code = 200 then (FetchResult.image response.content, [url])
    else (FetchResult.notFound, [url])

/-! ## Sequence assembler: `create_video_and_gif` (lines 77-103) -/

/-- One produced media file: where it was written, the frames it encodes in
order, and its frame rate. -/
structure MediaFile where
  path : String
  frames : List String
  fps : Nat
  deriving DecidableEq

/-- Outcome of `create_video_and_gif`: the `(None, None)` return with the
`st.error` message, or the two written files. -/
inductive AssemblyOutcome where
  | emptyInput
  | ok (video : MediaFile) (gif : MediaFile)
  deriving DecidableEq

/-- Python `s.endswith(suffix)`: the characters of `suffix` are a suffix of
the characters of `s`.  Case-sensitive, like Python. -/
def pyEndsWith (s suffix : String) : Bool :=
  suffix.data.isSuffixOf s.data

/-- The filter of line 79: `img.endswith((".png", ".jpg", ".jpeg"))` —
case-sensitive suffix test against the three lowercase extensions. -/
def isEligibleImage (f : String) : Bool :=
  pyEndsWith f ".png" || pyEndsWith f ".jpg" || pyEndsWith f ".jpeg"

/-- `os.path.join(folder_path, img)` for a directory and a plain file name. -/
def joinPath (folder_path f : String) : String := folder_path ++ "/" ++ f

/-- Line 78-80: the joined paths of the eligible directory entries, sorted. -/
def sortedImages (folder_path : String) (listing : List String) : List String :=
  pySorted ((listing.filter isEligibleImage).map (joinPath folder_path))

/-- `create_video_and_gif(folder_path, video_path, gif_path, fps)`
(lines 77-103) over the listing of `folder_path`.  The second component is
the list of output files written: none on the empty-input early return,
the video then the GIF otherwise.  Both outputs encode the same `images`
list, the video through `ImageSequenceClip(images, fps=fps)` and the GIF
through `write_gif(gif_path, fps=fps)` on that same clip. -/
def create_video_and_gif (folder_path : String) (listing : List String)
    (video_path gif_path : String) (fps : Nat) : AssemblyOutcome × List String :=
  let images := sortedImages folder_path listing
  if images = [] then (AssemblyOutcome.emptyInput, [])
  else
    (AssemblyOutcome.ok ⟨video_path, images, fps⟩ ⟨gif_path, images, fps⟩,
      [video_path, gif_path])

/-- Following the words of the specification, for comparison with the code:
both produced outputs cover identical frame content in identical order, at
the same requested frame rate. -/
def spec_identical_encoding (out : AssemblyOutcome) (requested_fps : Nat) : Prop :=
  ∀ v g, out = AssemblyOutcome.ok v g →
    v.frames = g.frames ∧ v.fps = requested_fps ∧ g.fps = requested_fps

/-! ## The `Create Video & GIF` button handler (lines 106-123) -/

/-- What a click of the button produces.  `nameError` records an uncaught
Python `NameError` escaping the handler, naming the unbound identifier. -/
inductive ButtonOutcome where
  | warnedNoFiles
  | nameError (unbound : String)
  deriving DecidableEq

/-- The handler of lines 106-123.  With no uploaded files it shows the
`st.warning` message.  With files present it evaluates
`save_uploaded_files(uploaded_files)` (line 109); the name
`save_uploaded_files` is not bound anywhere in the script, so Python
raises `NameError` there and the handler never reaches
`create_video_and_gif`. -/
def create_button_handler (uploaded_files : List String) : ButtonOutcome :=
  if uploaded_files.isEmpty then ButtonOutcome.warnedNoFiles
  else ButtonOutcome.nameError "save_uploaded_files"

/-! ## Intent matcher: `faq_data` and `get_best_match` (lines 129-166) -/

/-- The FAQ table (lines 129-157), in its Python insertion order. -/
def faq_data : List (String × String) := [
  ("What does this app do?",
    "This app converts a series of molecule images into a smooth video or GIF."),
  ("Who can use this app?",
    "Anyone! Researchers, students, and professionals working with molecule animations."),
  ("Is this app free to use?",
    "Yes! It is completely free to use."),
  ("Can I use this app on mobile devices?",
    "Yes, but for better experience, use it on a desktop or tablet."),
  ("What file types are supported for uploading?",
    "PNG, JPG, and JPEG formats are supported."),
  ("How many images can I upload at once?",
    "There is no strict limit, but too many images may slow down processing."),
  ("Can I upload images in any order?",
    "The app sorts images alphabetically, so rename them (1.png, 2.png, etc.)."),
  ("How does this app convert images into a video?",
    "It stitches your images together using MoviePy."),
  ("How long does it take to create a video?",
    "Processing time depends on the number of images and FPS settings."),
  ("What FPS should I choose?",
    "12-24 FPS is ideal for smooth animations."),
  ("What is the difference between a video and a GIF?",
    "Videos are MP4 format with better quality, while GIFs are more compressed."),
  ("Can I create both a video and a GIF at the same time?",
    "Yes, the app generates both simultaneously."),
  ("How do I download my video or GIF?",
    "Click the download button after processing is complete."),
  ("Where is my downloaded file saved?",
    "It is saved in your default \x27Downloads\x27 folder."),
  ("Will my uploaded images be stored on the server?",
    "No, uploaded images are processed temporarily and not stored."),
  ("Why is my video not generating?",
    "Check if you uploaded images and selected FPS properly."),
  ("Why does my video appear blurry?",
    "Use high-quality images for the best results."),
  ("Why is the animation too fast or too slow?",
    "Adjust the FPS settings in the sidebar.")]

/-- `faq_data.keys()`: the questions, in table order. -/
def faq_keys : List String := faq_data.map Prod.fst

/-- The fixed fallback answer of line 166. -/
def fallback_answer : String :=
  "🤖 Sorry, I couldn\x27t understand your question. Try rephrasing!"

/-- `rapidfuzz.process.extractOne` over the already-scored choices: scan
the choices keeping the best score seen, replacing only on a strict
improvement, so ties go to the first choice in iteration order. -/
def extractOneGo (score : String → ℚ) (bc : String) (bs : ℚ) :
    List String → String × ℚ
  | [] => (bc, bs)
  | c :: cs =>
    if score c > bs then extractOneGo score c (score c) cs
    else extractOneGo score bc bs cs

/-- `rapidfuzz.process.extractOne(query, choices)`: the best-scoring choice
and its score, `none` on an empty choice list.  The scorer is abstract:
rapidfuzz computes a similarity in the range 0 to 100. -/
def extractOne (score : String → ℚ) : List String → Option (String × ℚ)
  | [] => none
  | c :: cs => some (extractOneGo score c (score c) cs)

/-- `get_best_match(user_question)` (lines 160-166), parametrised by the
similarity scorer of the fuzzy library.  The best match over the table
keys is taken; strictly above confidence 75 the answer bound to the
matched key is returned (`faq_data[best_match]`, which always succeeds
since the match is a key), otherwise the fixed fallback string. -/
def get_best_match (score : String → String → ℚ) (user_question : String) : String :=
  match extractOne (score user_question) faq_keys with
  | some (best_match, confidence) =>
    if confidence > 75 then (faq_data.lookup best_match).getD fallback_answer
    else fallback_answer
  | none => fallback_answer

/-! ## Facts about the string order -/

theorem lexLe_cons_cons {x y : Char} {as bs : List Char} :
    lexLe (x :: as) (y :: bs) = true ↔ x < y ∨ (x = y ∧ lexLe as bs = true) := by
  simp only [lexLe]
  split
  · simp [*]
  · split
    · constructor
      · intro h
        exact absurd h (by simp)
      · rintro (h | ⟨rfl, h⟩)
        · exact absurd h (by assumption)
        · exact absurd (by assumption) (lt_irrefl x)
    · have hxy : x = y := le_antisymm (le_of_not_lt (by assumption)) (le_of_not_lt (by assumption))
      subst hxy
      simp

theorem lexLe_total : ∀ a b : List Char, lexLe a b = true ∨ lexLe b a = true
  | [], _ => Or.inl rfl
  | _ :: _, [] => Or.inr rfl
  | x :: as, y :: bs => by
    rcases lt_trichotomy x y with h | h | h
    · exact Or.inl (lexLe_cons_cons.mpr (Or.inl h))
    · rcases lexLe_total as bs with ih | ih
      · exact Or.inl (lexLe_cons_cons.mpr (Or.inr ⟨h, ih⟩))
      · exact Or.inr (lexLe_cons_cons.mpr (Or.inr ⟨h.symm, ih⟩))
    · exact Or.inr (lexLe_cons_cons.mpr (Or.inl h))

theorem lexLe_trans : ∀ a b c : List Char,
    lexLe a b = true → lexLe b c = true → lexLe a c = true
  | [], _, _, _, _ => rfl
  | _ :: _, [], _, h, _ => by simp [lexLe] at h
  | _ :: _, _ :: _, [], _, h => by simp [lexLe] at h
  | x :: as, y :: bs, z :: cs, hab, hbc => by
    rcases lexLe_cons_cons.mp hab with h₁ | ⟨rfl, h₁⟩ <;>
      rcases lexLe_cons_cons.mp hbc with h₂ | ⟨rfl, h₂⟩
    · exact lexLe_cons_cons.mpr (Or.inl (lt_trans h₁ h₂))
    · exact lexLe_cons_cons.mpr (Or.inl h₁)
    · exact lexLe_cons_cons.mpr (Or.inl h₂)
    · exact lexLe_cons_cons.mpr (Or.inr ⟨rfl, lexLe_trans as bs cs h₁ h₂⟩)

theorem lexLe_append_left : ∀ (p a b : List Char), lexLe (p ++ a) (p ++ b) = lexLe a b
  | [], _, _ => rfl
  | c :: p, a, b => by
    simp only [List.cons_append, lexLe, lt_irrefl c, if_false]
    exact lexLe_append_left p a b

theorem strLe_total (a b : String) : strLe a b = true ∨ strLe b a = true :=
  lexLe_total a.data b.data

theorem strLe_trans {a b c : String} (hab : strLe a b = true) (hbc : strLe b c = true) :
    strLe a c = true :=
  lexLe_trans a.data b.data c.data hab hbc

theorem strLe_joinPath (folder_path a b : String) :
    strLe (joinPath folder_path a) (joinPath folder_path b) = strLe a b := by
  show lexLe (folder_path ++ "/" ++ a).data (folder_path ++ "/" ++ b).data = _
  rw [String.data_append, String.data_append]
  exact lexLe_append_left (folder_path ++ "/").data a.data b.data

/-! ## Facts about the stable sort -/

theorem mem_insertStr {z x : String} : ∀ {l : List String},
    z ∈ insertStr x l ↔ z = x ∨ z ∈ l
  | [] => by simp [insertStr]
  | y :: ys => by
    simp only [insertStr]
    split
    · simp
    · simp [mem_insertStr (l := ys)]
      tauto

theorem insertStr_perm (x : String) : ∀ l : List String, List.Perm (insertStr x l) (x :: l)
  | [] => List.Perm.refl _
  | y :: ys => by
    simp only [insertStr]
    split
    · exact List.Perm.refl _
    · exact ((insertStr_perm x ys).cons y).trans (List.Perm.swap x y ys)

theorem pairwise_insertStr {x : String} : ∀ {l : List String},
    l.Pairwise (fun a b => strLe a b = true) →
    (insertStr x l).Pairwise (fun a b => strLe a b = true)
  | [], _ => by simp [insertStr]
  | y :: ys, h => by
    rcases List.pairwise_cons.mp h with ⟨hy, hys⟩
    simp only [insertStr]
    split
    · refine List.pairwise_cons.mpr ⟨?_, h⟩
      intro z hz
      rcases List.mem_cons.mp hz with rfl | hz
      · assumption
      · exact strLe_trans (by assumption) (hy z hz)
    · refine List.pairwise_cons.mpr ⟨?_, pairwise_insertStr hys⟩
      intro z hz
      rcases mem_insertStr.mp hz with rfl | hz
      · rcases strLe_total z y with h' | h'
        · exact absurd h' (by assumption)
        · exact h'
      · exact hy z hz

theorem pySorted_perm : ∀ l : List String, List.Perm (pySorted l) l
  | [] => List.Perm.refl _
  | x :: xs => (insertStr_perm x (pySorted xs)).trans ((pySorted_perm xs).cons x)

theorem pairwise_pySorted : ∀ l : List String,
    (pySorted l).Pairwise (fun a b => strLe a b = true)
  | [] => List.Pairwise.nil
  | _ :: xs => pairwise_insertStr (pairwise_pySorted xs)

theorem length_pySorted (l : List String) : (pySorted l).length = l.length :=
  (pySorted_perm l).length_eq

theorem insertStr_map {f : String → String}
    (hf : ∀ a b, strLe (f a) (f b) = strLe a b) (x : String) :
    ∀ l : List String, insertStr (f x) (l.map f) = (insertStr x l).map f
  | [] => rfl
  | y :: ys => by
    simp only [List.map_cons, insertStr, hf x y]
    split
    · rfl
    · rw [insertStr_map hf x ys]
      rfl

theorem pySorted_map {f : String → String}
    (hf : ∀ a b, strLe (f a) (f b) = strLe a b) :
    ∀ l : List String, pySorted (l.map f) = (pySorted l).map f
  | [] => rfl
  | x :: xs => by
    simp only [List.map_cons, pySorted]
    rw [pySorted_map hf xs, insertStr_map hf]

/-! ## Facts about the matcher -/

theorem extractOneGo_spec (score : String → ℚ) :
    ∀ (cs : List String) (bc : String) (bs : ℚ), score bc = bs →
    ((extractOneGo score bc bs cs).1 = bc ∨ (extractOneGo score bc bs cs).1 ∈ cs) ∧
    score (extractOneGo score bc bs cs).1 = (extractOneGo score bc bs cs).2 ∧
    bs ≤ (extractOneGo score bc bs cs).2 ∧
    ∀ c ∈ cs, score c ≤ (extractOneGo score bc bs cs).2
  | [], bc, bs, hbs => ⟨Or.inl rfl, hbs, le_refl bs, by simp⟩
  | c :: cs, bc, bs, hbs => by
    simp only [extractOneGo]
    split
    · rcases extractOneGo_spec score cs c (score c) rfl with ⟨h₁, h₂, h₃, h₄⟩
      refine ⟨?_, h₂, le_trans (le_of_lt (by assumption)) h₃, ?_⟩
      · rcases h₁ with h | h
        · exact Or.inr (by rw [h]; exact List.mem_cons_self c cs)
        · exact Or.inr (List.mem_cons_of_mem c h)
      · intro c' hc'
        rcases List.mem_cons.mp hc' with rfl | hc'
        · exact h₃
        · exact h₄ c' hc'
    · rcases extractOneGo_spec score cs bc bs hbs with ⟨h₁, h₂, h₃, h₄⟩
      refine ⟨?_, h₂, h₃, ?_⟩
      · rcases h₁ with h | h
        · exact Or.inl h
        · exact Or.inr (List.mem_cons_of_mem c h)
      · intro c' hc'
        rcases List.mem_cons.mp hc' with rfl | hc'
        · exact le_trans (le_of_not_lt (by assumption)) h₃
        · exact h₄ c' hc'

theorem extractOne_cons_spec (score : String → ℚ) (c : String) (cs : List String)
    {bm : String} {conf : ℚ} (h : extractOne score (c :: cs) = some (bm, conf)) :
    bm ∈ c :: cs ∧ score bm = conf ∧ ∀ k ∈ c :: cs, score k ≤ conf := by
  simp only [extractOne, Option.some.injEq] at h
  rcases extractOneGo_spec score cs c (score c) rfl with ⟨h₁, h₂, h₃, h₄⟩
  rw [h] at h₁ h₂ h₃ h₄
  refine ⟨?_, h₂, ?_⟩
  · rcases h₁ with h' | h'
    · exact h' ▸ List.mem_cons_self c cs
    · exact List.mem_cons_of_mem c h'
  · intro k hk
    rcases List.mem_cons.mp hk with rfl | hk
    · exact h₃
    · exact h₄ k hk

theorem faq_keys_cons :
    faq_keys = "What does this app do?" :: (faq_data.drop 1).map Prod.fst := rfl

theorem extractOne_faq_isSome (score : String → ℚ) :
    ∃ r : String × ℚ, extractOne score faq_keys = some r :=
  ⟨_, rfl⟩

theorem extractOne_faq_spec (score : String → ℚ) {bm : String} {conf : ℚ}
    (h : extractOne score faq_keys = some (bm, conf)) :
    bm ∈ faq_keys ∧ score bm = conf ∧ ∀ k ∈ faq_keys, score k ≤ conf := by
  rw [faq_keys_cons] at h ⊢
  exact extractOne_cons_spec score _ _ h

theorem get_best_match_eq (score : String → String → ℚ) (q : String)
    {bm : String} {conf : ℚ}
    (h : extractOne (score q) faq_keys = some (bm, conf)) :
    get_best_match score q =
      if 75 < conf then (faq_data.lookup bm).getD fallback_answer
      else fallback_answer := by
  unfold get_best_match
  rw [h]

theorem lookup_mem {l : List (String × String)} {k v : String}
    (h : l.lookup k = some v) : (k, v) ∈ l := by
  rcases List.lookup_eq_some_iff.mp h with ⟨l₁, l₂, rfl, -⟩
  simp

theorem exists_lookup_of_mem_keys {l : List (String × String)} {k : String}
    (h : k ∈ l.map Prod.fst) : ∃ v, l.lookup k = some v := by
  have : (l.lookup k).isSome := by
    rcases List.mem_map.mp h with ⟨p, hp, rfl⟩
    exact List.lookup_isSome_iff.mpr ⟨p, hp, by simp⟩
  exact ⟨(l.lookup k).get this, by simp⟩

theorem lookup_of_mem_nodup {k v : String} :
    ∀ {l : List (String × String)}, (l.map Prod.fst).Nodup → (k, v) ∈ l →
      l.lookup k = some v
  | [], _, hmem => absurd hmem (List.not_mem_nil _)
  | (k', v') :: t, hnd, hmem => by
    have hnd' : k' ∉ t.map Prod.fst ∧ (t.map Prod.fst).Nodup := by
      rw [List.map_cons, List.nodup_cons] at hnd
      exact hnd
    rcases List.mem_cons.mp hmem with heq | hmem'
    · cases heq
      exact List.lookup_cons_self
    · have hk : k ≠ k' := by
        rintro rfl
        exact hnd'.1 (List.mem_map.mpr ⟨(k, v), hmem', rfl⟩)
      have hbeq : (k == k') = false := beq_eq_false_iff_ne.mpr hk
      simp only [List.lookup_cons, hbeq, cond_false]
      exact lookup_of_mem_nodup hnd'.2 hmem'

theorem faq_keys_nodup : faq_keys.Nodup := by decide

theorem fallback_not_an_answer : ∀ qa ∈ faq_data, fallback_answer ≠ qa.2 := by decide

/-- C1: for every question string and the fixed FAQ table, the intent
matcher computes the best fuzzy-similarity match over the table keys: the
matched key is a table key attaining the maximal score over all keys; if
that best score is strictly greater than 75 the answer bound to the
matched key is returned, and if it is less than or equal to 75 the fixed
fallback string is returned, which is never a table answer. -/
theorem c1_threshold_dichotomy (score : String → String → ℚ) (q : String) :
    ∃ best_match confidence,
      extractOne (score q) faq_keys = some (best_match, confidence) ∧
      best_match ∈ faq_keys ∧
      score q best_match = confidence ∧
      (∀ k ∈ faq_keys, score q k ≤ confidence) ∧
      (75 < confidence →
        ∃ a, (best_match, a) ∈ faq_data ∧ get_best_match score q = a) ∧
      (confidence ≤ 75 →
        get_best_match score q = fallback_answer ∧
        ∀ qa ∈ faq_data, get_best_match score q ≠ qa.2) := by
  obtain ⟨⟨bm, conf⟩, hr⟩ := extractOne_faq_isSome (score q)
  obtain ⟨hmem, hscore, hub⟩ := extractOne_faq_spec _ hr
  refine ⟨bm, conf, hr, hmem, hscore, hub, ?_, ?_⟩
  · intro hconf
    obtain ⟨a, ha⟩ := exists_lookup_of_mem_keys (show bm ∈ faq_data.map Prod.fst from hmem)
    refine ⟨a, lookup_mem ha, ?_⟩
    rw [get_best_match_eq score q hr, if_pos hconf, ha]
    rfl
  · intro hconf
    have hfb : get_best_match score q = fallback_answer := by
      rw [get_best_match_eq score q hr, if_neg (not_lt.mpr hconf)]
    refine ⟨hfb, fun qa hqa => ?_⟩
    rw [hfb]
    exact fallback_not_an_answer qa hqa

/-- A constant similarity scorer used to exercise the matcher theorems. -/
def zeroScorer : String → String → ℚ := fun _ _ => 0

/-- Witness for C1: under the all-zero scorer the best score is 0, which is
at most 75, so the question about the weather gets the fallback answer. -/
theorem c1_threshold_dichotomy_witness :
    get_best_match zeroScorer "what is the weather today?" = fallback_answer := by
  obtain ⟨bm, conf, hr, hmem, hscore, hub, hgt, hle⟩ :=
    c1_threshold_dichotomy zeroScorer "what is the weather today?"
  have hc : conf ≤ 75 := by
    rw [← hscore]
    norm_num [zeroScorer]
  exact (hle hc).1

/-- C7: the intent matcher is total: for every scorer and every question
it returns a defined answer string, either the fixed fallback string or
an answer from the FAQ table. -/
theorem c7_matcher_total (score : String → String → ℚ) (user_question : String) :
    get_best_match score user_question = fallback_answer ∨
      ∃ qa ∈ faq_data, get_best_match score user_question = qa.2 := by
  obtain ⟨⟨bm, conf⟩, hr⟩ := extractOne_faq_isSome (score user_question)
  rw [get_best_match_eq score user_question hr]
  by_cases h : 75 < conf
  · rw [if_pos h]
    obtain ⟨hmem, -, -⟩ := extractOne_faq_spec _ hr
    obtain ⟨a, ha⟩ := exists_lookup_of_mem_keys (show bm ∈ faq_data.map Prod.fst from hmem)
    refine Or.inr ⟨(bm, a), lookup_mem ha, ?_⟩
    rw [ha]
    rfl
  · rw [if_neg h]
    exact Or.inl rfl

/-- C9: a question exactly equal to a FAQ key is answered with that key's
answer, provided the scorer behaves as a fuzzy similarity: the score of a
string with itself is 100, no score exceeds 100, and only the key itself
scores a full 100 against the question. -/
theorem c9_exact_match (score : String → String → ℚ) (q a : String)
    (hmem : (q, a) ∈ faq_data)
    (hrefl : score q q = 100)
    (hub : ∀ k ∈ faq_keys, score q k ≤ 100)
    (huniq : ∀ k ∈ faq_keys, score q k = 100 → k = q) :
    get_best_match score q = a := by
  obtain ⟨⟨bm, conf⟩, hr⟩ := extractOne_faq_isSome (score q)
  obtain ⟨hbm, hscore, hubc⟩ := extractOne_faq_spec _ hr
  have hqk : q ∈ faq_keys := List.mem_map.mpr ⟨(q, a), hmem, rfl⟩
  have h1 : conf ≤ 100 := by
    rw [← hscore]
    exact hub bm hbm
  have h2 : (100 : ℚ) ≤ conf := by
    rw [← hrefl]
    exact hubc q hqk
  have h100 : conf = 100 := le_antisymm h1 h2
  have hbmq : bm = q := huniq bm hbm (by rw [hscore, h100])
  rw [get_best_match_eq score q hr, if_pos (by rw [h100]; norm_num), hbmq,
    lookup_of_mem_nodup faq_keys_nodup hmem]
  rfl

/-- The exact-equality similarity scorer: 100 on equal strings, 0 otherwise. -/
def exactScorer : String → String → ℚ := fun x y => if x = y then 100 else 0

/-- Witness for C9: asking the table key about the app being free, under
the exact-equality scorer, returns exactly its bound answer. -/
theorem c9_exact_match_witness :
    (("Is this app free to use?", "Yes! It is completely free to use.") ∈ faq_data ∧
      exactScorer "Is this app free to use?" "Is this app free to use?" = 100 ∧
      (∀ k ∈ faq_keys, exactScorer "Is this app free to use?" k ≤ 100) ∧
      (∀ k ∈ faq_keys, exactScorer "Is this app free to use?" k = 100 →
        k = "Is this app free to use?")) ∧
    get_best_match exactScorer "Is this app free to use?" =
      "Yes! It is completely free to use." :=
  ⟨⟨by decide, by decide, by decide, by decide⟩,
    c9_exact_match exactScorer "Is this app free to use?" "Yes! It is completely free to use."
      (by decide) (by decide) (by decide) (by decide)⟩

/-! ## Facts about the assembler -/

theorem sortedImages_eq (folder_path : String) (listing : List String) :
    sortedImages folder_path listing =
      (pySorted (listing.filter isEligibleImage)).map (joinPath folder_path) :=
  pySorted_map (strLe_joinPath folder_path) _

theorem sortedImages_length (folder_path : String) (listing : List String) :
    (sortedImages folder_path listing).length = (listing.filter isEligibleImage).length := by
  rw [sortedImages_eq, List.length_map, length_pySorted]

theorem sortedImages_eq_nil_iff {folder_path : String} {listing : List String} :
    sortedImages folder_path listing = [] ↔ listing.filter isEligibleImage = [] := by
  rw [← List.length_eq_zero, ← List.length_eq_zero (l := listing.filter isEligibleImage),
    sortedImages_length]

theorem create_video_and_gif_ok_inv {folder_path video_path gif_path : String}
    {listing : List String} {fps : Nat} {v g : MediaFile}
    (h : (create_video_and_gif folder_path listing video_path gif_path fps).1 =
      AssemblyOutcome.ok v g) :
    v = ⟨video_path, sortedImages folder_path listing, fps⟩ ∧
    g = ⟨gif_path, sortedImages folder_path listing, fps⟩ := by
  by_cases hs : sortedImages folder_path listing = []
  · simp [create_video_and_gif, hs] at h
  · simp only [create_video_and_gif, if_neg hs] at h
    injection h with h1 h2
    exact ⟨h1.symm, h2.symm⟩

/-- C2: for every folder listing with at least one eligible image, assembly
produces a video and a GIF; both encode one frame per eligible input image
(the frame count equals the eligible input count), and the frames are the
eligible file names in lexicographic order, each joined to the folder
path. -/
theorem c2_assemble_sorted_frames (folder_path : String) (listing : List String)
    (video_path gif_path : String) (fps : Nat)
    (hne : listing.filter isEligibleImage ≠ []) :
    create_video_and_gif folder_path listing video_path gif_path fps =
      (AssemblyOutcome.ok
          ⟨video_path, (pySorted (listing.filter isEligibleImage)).map (joinPath folder_path), fps⟩
          ⟨gif_path, (pySorted (listing.filter isEligibleImage)).map (joinPath folder_path), fps⟩,
        [video_path, gif_path]) ∧
    ((pySorted (listing.filter isEligibleImage)).map (joinPath folder_path)).length =
      (listing.filter isEligibleImage).length ∧
    (pySorted (listing.filter isEligibleImage)).Pairwise (fun a b => strLe a b = true) ∧
    List.Perm (pySorted (listing.filter isEligibleImage)) (listing.filter isEligibleImage) := by
  have hne' : sortedImages folder_path listing ≠ [] :=
    fun h => hne (sortedImages_eq_nil_iff.mp h)
  refine ⟨?_, ?_, pairwise_pySorted _, pySorted_perm _⟩
  · simp only [create_video_and_gif, if_neg hne']
    rw [sortedImages_eq]
  · rw [List.length_map, length_pySorted]

/-- Witness for C2: two eligible frames and one ineligible file; the two
frames are assembled in lexicographic order, which puts `10.png` before
`2.png`. -/
theorem c2_assemble_sorted_frames_witness :
    (["2.png", "10.png", "note.txt"].filter isEligibleImage ≠ []) ∧
    create_video_and_gif "d" ["2.png", "10.png", "note.txt"] "output_video.mp4"
        "output_animation.gif" 12 =
      (AssemblyOutcome.ok ⟨"output_video.mp4", ["d/10.png", "d/2.png"], 12⟩
          ⟨"output_animation.gif", ["d/10.png", "d/2.png"], 12⟩,
        ["output_video.mp4", "output_animation.gif"]) :=
  ⟨by decide,
    ((c2_assemble_sorted_frames "d" ["2.png", "10.png", "note.txt"] "output_video.mp4"
        "output_animation.gif" 12 (by decide)).1).trans (by decide)⟩

/-- C3: for every folder listing with at least one eligible image, both
outputs are produced, and they are encoded from identical frame content in
identical order at the same requested frame rate: the statement of the
specification, `spec_identical_encoding`, holds of the assembly outcome. -/
theorem c3_video_gif_agree (folder_path : String) (listing : List String)
    (video_path gif_path : String) (fps : Nat)
    (hne : listing.filter isEligibleImage ≠ []) :
    spec_identical_encoding
      (create_video_and_gif folder_path listing video_path gif_path fps).1 fps ∧
    ∃ v g, (create_video_and_gif folder_path listing video_path gif_path fps).1 =
      AssemblyOutcome.ok v g := by
  have hne' : sortedImages folder_path listing ≠ [] :=
    fun h => hne (sortedImages_eq_nil_iff.mp h)
  constructor
  · intro v g hvg
    obtain ⟨rfl, rfl⟩ := create_video_and_gif_ok_inv hvg
    exact ⟨rfl, rfl, rfl⟩
  · exact ⟨⟨video_path, sortedImages folder_path listing, fps⟩,
      ⟨gif_path, sortedImages folder_path listing, fps⟩,
      by simp only [create_video_and_gif, if_neg hne']⟩

/-- Witness for C3 at a concrete two-frame upload. -/
theorem c3_video_gif_agree_witness :
    (["1.png", "2.png"].filter isEligibleImage ≠ []) ∧
    spec_identical_encoding
      (create_video_and_gif "d" ["1.png", "2.png"] "output_video.mp4"
        "output_animation.gif" 12).1 12 ∧
    ∃ v g, (create_video_and_gif "d" ["1.png", "2.png"] "output_video.mp4"
        "output_animation.gif" 12).1 = AssemblyOutcome.ok v g :=
  ⟨by decide,
    c3_video_gif_agree "d" ["1.png", "2.png"] "output_video.mp4"
      "output_animation.gif" 12 (by decide)⟩

/-- C6: for a folder listing with no eligible image file, assembly returns
the empty-input error and writes no output files. -/
theorem c6_empty_sequence (folder_path : String) (listing : List String)
    (video_path gif_path : String) (fps : Nat)
    (hempty : listing.filter isEligibleImage = []) :
    create_video_and_gif folder_path listing video_path gif_path fps =
      (AssemblyOutcome.emptyInput, []) := by
  have h : sortedImages folder_path listing = [] := sortedImages_eq_nil_iff.mpr hempty
  simp [create_video_and_gif, h]

/-- Witness for C6: an upload with only an uppercase-extension image and a
text file counts as empty and produces no output. -/
theorem c6_empty_sequence_witness :
    (["frame.PNG", "notes.txt"].filter isEligibleImage = []) ∧
    create_video_and_gif "d" ["frame.PNG", "notes.txt"] "output_video.mp4"
        "output_animation.gif" 12 = (AssemblyOutcome.emptyInput, []) :=
  ⟨by decide,
    c6_empty_sequence "d" ["frame.PNG", "notes.txt"] "output_video.mp4"
      "output_animation.gif" 12 (by decide)⟩

/-- C10: assembly selects exactly the files whose names end with the
lowercase suffixes `.png`, `.jpg` or `.jpeg`; extensions differing only in
letter case are excluded, and an upload of only such files counts as
empty. -/
theorem c10_lowercase_extensions :
    (∀ (listing : List String) (f : String),
      f ∈ listing.filter isEligibleImage ↔
        f ∈ listing ∧ (pyEndsWith f ".png" || pyEndsWith f ".jpg" || pyEndsWith f ".jpeg") = true) ∧
    isEligibleImage "frame.PNG" = false ∧
    isEligibleImage "frame.JPG" = false ∧
    isEligibleImage "frame.JPEG" = false ∧
    isEligibleImage "frame.png" = true ∧
    isEligibleImage "frame.jpg" = true ∧
    isEligibleImage "frame.jpeg" = true ∧
    create_video_and_gif "d" ["1.PNG", "2.JPG", "3.JPEG"] "output_video.mp4"
        "output_animation.gif" 12 = (AssemblyOutcome.emptyInput, []) := by
  refine ⟨?_, by decide, by decide, by decide, by decide, by decide, by decide, by decide⟩
  intro listing f
  rw [List.mem_filter]
  exact Iff.rfl

/-! ## Fetch and button-handler claims -/

/-- C4: fetching with the empty molecule name fails with the empty-input
outcome and issues no HTTP request, whatever the structure type and
whatever the network would answer. -/
theorem c4_empty_name_no_request (structure_type : String) (net : String → HttpResponse) :
    fetch_pubchem_image "" structure_type net = (FetchResult.emptyInput, []) := by
  simp [fetch_pubchem_image]

/-- C5: for a non-empty molecule name whose lookup gets a non-200 response,
fetch returns the not-found outcome; exactly one request is issued (no
retry), and the outcome depends only on the status being non-200. -/
theorem c5_non_success_not_found (molecule_name structure_type : String)
    (net : String → HttpResponse)
    (hname : molecule_name ≠ "")
    (hstatus : (net (image_url molecule_name
        (if structure_type = "2D Structure" then "2d" else "3d"))).status_code ≠ 200) :
    fetch_pubchem_image molecule_name structure_type net =
      (FetchResult.notFound,
        [image_url molecule_name
          (if structure_type = "2D Structure" then "2d" else "3d")]) := by
  simp only [fetch_pubchem_image, if_neg hname, if_neg hstatus]

/-- A network that answers every request with status 404 and no payload. -/
def notFoundNet : String → HttpResponse := fun _ => ⟨404, []⟩

/-- Witness for C5: a 2D lookup for Water against the 404 network. -/
theorem c5_non_success_not_found_witness :
    ("Water" ≠ "" ∧ (notFoundNet (image_url "Water" "2d")).status_code ≠ 200) ∧
    fetch_pubchem_image "Water" "2D Structure" notFoundNet =
      (FetchResult.notFound, [image_url "Water" "2d"]) :=
  ⟨⟨by decide, by decide⟩,
    c5_non_success_not_found "Water" "2D Structure" notFoundNet (by decide) (by decide)⟩

/-- C8 is refuted by the code: with uploaded files present, the
`Create Video & GIF` handler evaluates `save_uploaded_files`, a name that
is bound nowhere in the script, so the click raises an uncaught Python
`NameError` instead of a handled user-visible message; only the no-files
branch shows its warning and aborts cleanly. -/
theorem c8_handler_unhandled_name_error :
    create_button_handler ["1.png"] = ButtonOutcome.nameError "save_uploaded_files" ∧
    create_button_handler [] = ButtonOutcome.warnedNoFiles :=
  ⟨rfl, rfl⟩
